import Mathlib

/-!
Verification development for the message-store extractor (extract_messages.py).

The Python source is shallowly embedded below.  Bytes are modelled as Nat
(values 0..255), byte strings as List Nat, Python strings as String,
optional values as Option, the sqlite database as an explicit structure of
rows, and process effects (stdout, stderr, exit) as an explicit result
record.  The external keyed-archive decoder (the bpylist2 library, which is
not part of this repository) is modelled by an abstract function
unarch : List Nat -> Except Unit Decoded supplied as a parameter, where
Decoded models the duck-typed Python object probed by the source
(lines 76-91): an optional string attribute, an optional attribute
dictionary, and an optional identity-as-string.
-/

/-- Whitespace predicate matching the Python str.strip default for the
ASCII characters that can occur in the payloads handled here. -/
def pyIsSpace (c : Char) : Bool :=
  c = ' ' || c = '\t' || c = '\n' || c = '\r' || c = '\x0B' || c = '\x0C'

/-- Strip whitespace from both ends of a character list, as Python
str.strip does. -/
def stripChars (l : List Char) : List Char :=
  ((l.dropWhile pyIsSpace).reverse.dropWhile pyIsSpace).reverse

/-- Embedding of the Python expression s.strip(). -/
def pyStrip (s : String) : String :=
  ⟨stripChars s.data⟩

/-- Model of a Python attribute value found in a decoded object dictionary:
either a genuine str, or some other object carrying its truthiness and its
str() rendering. -/
inductive PyVal where
  | pstr (s : String)
  | other (truthy : Bool) (rendered : String)
deriving DecidableEq

/-- Truthiness of a Python attribute value. -/
def pyTruthy : PyVal → Bool
  | .pstr s => !(s = "")
  | .other t _ => t

/-- Rendering of a Python attribute value through str(). -/
def pyToStr : PyVal → String
  | .pstr s => s
  | .other _ r => r

/-- Model of the object returned by archiver.unarchive, as probed by the
source: stringAttr models hasattr(decoded, for the string attribute) with
the str() of that attribute, dictAttr models the attribute dictionary, and
strSelf is some s exactly when the decoded object is itself the str s. -/
structure Decoded where
  stringAttr : Option String
  dictAttr : Option (List (String × PyVal))
  strSelf : Option String
deriving DecidableEq

/-- Dictionary lookup in a decoded object dictionary. -/
def lookupDict (d : List (String × PyVal)) (k : String) : Option PyVal :=
  (d.find? (fun p => p.1 = k)).map (fun p => p.2)

/-- Embedding of the key-probing loop (source lines 80-83): the first of
the listed keys that is present with a truthy value, rendered by str(). -/
def probeKeys (d : List (String × PyVal)) : List String → Option String
  | [] => none
  | k :: ks =>
    match lookupDict d k with
    | some v => if pyTruthy v then some (pyToStr v) else probeKeys d ks
    | none => probeKeys d ks

/-- Embedding of the value-scanning loop (source lines 86-89): the first
dictionary value that is a str with truthy strip. -/
def scanDictVals : List (String × PyVal) → Option String
  | [] => none
  | (_, .pstr s) :: rest =>
    if pyStrip s = "" then scanDictVals rest else some s
  | (_, .other _ _) :: rest => scanDictVals rest

/-- Embedding of the Tier 1 text extraction from a successfully decoded
object (source lines 76-91).  A result of some "" models the Python
variable holding an empty, falsy string. -/
def extractFromDecoded (d : Decoded) : Option String :=
  match d.stringAttr with
  | some s => some s
  | none =>
    match d.dictAttr with
    | some dict =>
      match probeKeys dict ["NSString", "string", "text"] with
      | some s =>
        if s = "" then
          match scanDictVals dict with
          | some v => some v
          | none => some ""
        else some s
      | none => scanDictVals dict
    | none => d.strSelf

/-- Metadata keywords skipped by the Tier 2 scan (source lines 99-103). -/
def skipKeywords : List String :=
  ["streamtyped", "NSString", "NSAttributedString", "NSMutableString",
   "__kIM", "AttributeName", "NSData", "bplist", "RelativeDay",
   "DateTime", "NSNumber", "NSDate", "NSURL", "NSValue"]

/-- Embedding of the Python containment test of any skip keyword inside a
candidate string (source line 120). -/
def isMetaStr (p : String) : Bool :=
  skipKeywords.any (fun k => decide (k.data <:+: p.data))

/-- Embedding of potential.replace(space, empty).isdigit() from source
line 122: true when the string with spaces removed is nonempty and all
digits. -/
def isDigitsNoSpaces (p : String) : Bool :=
  let r := p.data.filter (fun c => !(c = ' '))
  !r.isEmpty && r.all Char.isDigit

/-- Candidate filter of the Tier 2 scan (source line 122): not metadata,
longer than 5 characters after trimming, not all digits after space
removal. -/
def candOk (p : String) : Bool :=
  !isMetaStr p && decide (5 < p.length) && !isDigitsNoSpaces p

/-- Byte predicate of the inner run-extension loop (source line 113):
printable ASCII or line feed or carriage return. -/
def isRunByte (n : Nat) : Bool :=
  decide ((32 ≤ n ∧ n ≤ 126) ∨ n = 10 ∨ n = 13)

/-- Byte predicate of the run-start test (source line 110): printable
ASCII only. -/
def isPrintByte (n : Nat) : Bool :=
  decide (32 ≤ n ∧ n ≤ 126)

/-- Embedding of the inner while loop finding the end of a printable run
(source lines 112-114).  The fuel argument is called with b.length + 1,
which exceeds the number of loop iterations, so the loop always runs to
its Python exit condition. -/
def runEnd (b : List Nat) : Nat → Nat → Nat
  | 0, e => e
  | fuel + 1, e =>
    if e < b.length then
      if isRunByte (b.getD e 0) then runEnd b fuel (e + 1) else e
    else e

/-- Decoding of a run of bytes as text.  Run bytes are always in the
ASCII range, where strict UTF-8 decoding is total and maps each byte to
the character of the same code point. -/
def decodeAscii (l : List Nat) : String :=
  ⟨l.map Char.ofNat⟩

/-- Embedding of the outer candidate-collection loop of the Tier 2 byte
scan (source lines 106-128).  The fuel argument is called with
b.length + 1; every iteration strictly increases the index i, and the loop
exits once i reaches b.length - 4, so this fuel exceeds the number of
iterations and the loop always runs to its Python exit condition. -/
def scanLoop (b : List Nat) : Nat → Nat → List (Nat × String)
  | 0, _ => []
  | fuel + 1, i =>
    if i < b.length - 4 then
      if isPrintByte (b.getD i 0) then
        let e := runEnd b (b.length + 1) i
        if i + 5 < e then
          let potential := pyStrip (decodeAscii ((b.drop i).take (e - i)))
          if candOk potential then
            (potential.length, potential) :: scanLoop b fuel e
          else scanLoop b fuel e
        else scanLoop b fuel e
      else scanLoop b fuel (i + 1)
    else []

/-- Candidate list collected by the Tier 2 scan, in scan order. -/
def tier2Candidates (b : List Nat) : List (Nat × String) :=
  scanLoop b (b.length + 1) 0

/-- Lexicographic order on character lists by code point, matching the
Python comparison of str values. -/
def lexLe : List Char → List Char → Bool
  | [], _ => true
  | _ :: _, [] => false
  | a :: as, b :: bs =>
    if a.toNat < b.toNat then true
    else if b.toNat < a.toNat then false
    else lexLe as bs

/-- Python comparison of (int, str) tuples: compare the first components,
then the strings lexicographically. -/
def pyTupleLe (a b : Nat × String) : Bool :=
  if a.1 < b.1 then true
  else if b.1 < a.1 then false
  else lexLe a.2.data b.2.data

/-- Reversed tuple order used for the descending sort of source
line 132. -/
def tupleGe (a b : Nat × String) : Bool :=
  pyTupleLe b a

/-- Ordered insertion used by the insertion sort below. -/
def insertOrd {α : Type} (le : α → α → Bool) (a : α) : List α → List α
  | [] => [a]
  | b :: l => if le a b then a :: b :: l else b :: insertOrd le a l

/-- Stable insertion sort parameterised by a boolean order.  With a total
transitive order this produces the same sequence as the stable Python
sort. -/
def sortOrd {α : Type} (le : α → α → Bool) : List α → List α
  | [] => []
  | a :: l => insertOrd le a (sortOrd le l)

/-- Embedding of the Tier 2 heuristic byte scan (source lines 94-133):
collect candidates, sort the (length, text) tuples descending and take
the first, if any. -/
def tier2Scan (b : List Nat) : Option String :=
  match sortOrd tupleGe (tier2Candidates b) with
  | [] => none
  | p :: _ => some p.2

/-- Selection rule as worded by the specification: the longest candidate,
with ties between equal-length candidates broken by first occurrence in
scan order.  This definition follows the words of the spec and is compared
against the source-derived tier2Scan. -/
def specFirstLongest (l : List (Nat × String)) : Option String :=
  (l.foldl
    (fun acc p =>
      match acc with
      | none => some p
      | some q => if q.1 < p.1 then some p else acc)
    none).map (fun p => p.2)

/-- Truthiness of the Python message-text variable, which may hold None
(none) or a string (some, falsy exactly when empty). -/
def optFalsy : Option String → Bool
  | none => true
  | some s => s = ""

/-- Embedding of the attributed-body text extraction for a present,
nonempty payload, given the outcome of the external unarchive call: on
success the Tier 1 object probing runs, on failure the Tier 2 byte scan
(source lines 57-135). -/
def attributedTextOf (r : Except Unit Decoded) (b : List Nat) : Option String :=
  match r with
  | .ok d => extractFromDecoded d
  | .error _ => tier2Scan b

/-- Embedding of the payload guard and decode step (source lines 56-135):
the decode runs only when the payload is present and nonempty. -/
def decodedTextOf (unarch : List Nat → Except Unit Decoded)
    (body : Option (List Nat)) : Option String :=
  match body with
  | none => none
  | some b => if b.isEmpty then none else attributedTextOf (unarch b) b

/-- Embedding of the plain-text fallback (source lines 146-148). -/
def withFallback (mt : Option String) (text : Option String) : Option String :=
  if optFalsy mt then
    match text with
    | some t =>
      if t ≠ "" ∧ pyStrip t ≠ "" ∧ pyStrip t ≠ "￼" then some t else mt
    | none => mt
  else mt

/-- Embedding of the final print guard (source line 151): a line is
printed exactly when the text is truthy and does not strip to the object
replacement glyph. -/
def displayGuard (mt : Option String) : Option String :=
  match mt with
  | some s => if s ≠ "" ∧ pyStrip s ≠ "￼" then some s else none
  | none => none

/-- Display text of one message in non-debug mode: some s when a message
line with text s is printed, none when the message is omitted. -/
def displayedText (unarch : List Nat → Except Unit Decoded)
    (body : Option (List Nat)) (text : Option String) : Option String :=
  displayGuard (withFallback (decodedTextOf unarch body) text)

/-- Database row of the message table, as selected by the query of source
lines 29-41. -/
structure Msg where
  rowid : Nat
  text : Option String
  body : Option (List Nat)
  date : Int
  fromMe : Bool
deriving DecidableEq

/-- Relational store: chat rows (rowid, chat identifier), message rows,
and join rows (chat_id, message_id). -/
structure Db where
  chats : List (Nat × String)
  messages : List Msg
  joins : List (Nat × Nat)
deriving DecidableEq

/-- Embedding of the join and filter of the extraction query (source
lines 29-41): message join chat_message_join join chat, filtered on the
chat identifier. -/
def matchingRows (db : Db) (cid : String) : List Msg :=
  db.messages.flatMap (fun m =>
    db.joins.flatMap (fun j =>
      db.chats.filterMap (fun c =>
        if j.2 = m.rowid ∧ j.1 = c.1 ∧ c.2 = cid then some m else none)))

/-- Date order used by ORDER BY message.date ASC. -/
def dateLe (a b : Msg) : Bool :=
  decide (a.date ≤ b.date)

/-- Embedding of the extraction query: matching rows ordered by ascending
date. -/
def queryMessages (db : Db) (cid : String) : List Msg :=
  sortOrd dateLe (matchingRows db cid)

/-- Group keys of the list query (source lines 170-177): one occurrence of
the chat identifier per joined (chat, join row, message) triple. -/
def chatGroupKeys (db : Db) : List String :=
  db.chats.flatMap (fun c =>
    db.joins.flatMap (fun j =>
      db.messages.filterMap (fun m =>
        if c.1 = j.1 ∧ j.2 = m.rowid then some c.2 else none)))

/-- Descending order on message counts used by ORDER BY message_count
DESC. -/
def countDesc (a b : String × Nat) : Bool :=
  decide (b.2 ≤ a.2)

/-- Embedding of the list query: one (identifier, count) pair per distinct
group key, ordered by descending count. -/
def listChatsPairs (db : Db) : List (String × Nat) :=
  let keys := chatGroupKeys db
  sortOrd countDesc (keys.dedup.map (fun id => (id, keys.count id)))

/-- Formatted message line (source line 152); the bracketed part models
the SQL-rendered date. -/
def msgLine (m : Msg) (s : String) : String :=
  "[" ++ toString m.date ++ "] " ++ (if m.fromMe then "Me" else "Them")
    ++ ": " ++ s

/-- Placeholder line printed in debug mode for a message with no display
text (source line 155). -/
def nonTextLine (m : Msg) : String :=
  "[" ++ toString m.date ++ "] " ++ (if m.fromMe then "Me" else "Them")
    ++ ": [non-text content]"

/-- Lines printed for one message row (source lines 48-155; the extra
debug diagnostic dumps of lines 61-72 and 137-144 are not modelled). -/
def rowLines (unarch : List Nat → Except Unit Decoded) (dbg : Bool)
    (m : Msg) : List String :=
  match displayedText unarch m.body m.text with
  | some s => [msgLine m s]
  | none => if dbg then [nonTextLine m] else []

/-- Lines printed by the message loop, in row order, one row after
another. -/
def rowsLines (unarch : List Nat → Except Unit Decoded) (dbg : Bool) :
    List Msg → List String
  | [] => []
  | m :: rest => rowLines unarch dbg m ++ rowsLines unarch dbg rest

/-- Header line of the extract command (source line 46). -/
def foundLine (n : Nat) (cid : String) : String :=
  "Found " ++ toString n ++ " messages in chat: " ++ cid ++ "\n"

/-- Remediation hint printed when the store cannot be opened (source
lines 24 and 166). -/
def fdaHint : String :=
  "Please ensure your terminal application has \x27Full Disk Access\x27 in System Settings > Privacy & Security."

/-- Error-stream lines of the store-open failure path. -/
def connErrLines (e : String) : List String :=
  ["Error connecting to database: " ++ e, fdaHint]

/-- Observable outcome of a run: standard output lines, error-stream
lines, and the exit status (none models normal return). -/
structure ProgResult where
  out : List String
  err : List String
  exit : Option Nat
deriving DecidableEq

/-- Connection events of an operation: open, a print to standard output,
close. -/
inductive Ev where
  | eOpen
  | ePrint (s : String)
  | eClose
deriving DecidableEq

/-- Print lines carried by an event trace. -/
def printsOf (evs : List Ev) : List String :=
  evs.filterMap (fun e =>
    match e with
    | .ePrint s => some s
    | _ => none)

/-- Event trace of a successful extract run (source lines 20-157): open,
header print, one print per displayed row, close.  The close is the last
statement of the function, with no scoped guard around the loop. -/
def extractEvents (db : Db) (cid : String) (dbg : Bool)
    (unarch : List Nat → Except Unit Decoded) : List Ev :=
  (Ev.eOpen :: Ev.ePrint (foundLine (queryMessages db cid).length cid)
      :: (rowsLines unarch dbg (queryMessages db cid)).map Ev.ePrint)
    ++ [Ev.eClose]

/-- Formatted chat line of the list command (source line 184). -/
def chatLine (p : String × Nat) : String :=
  "  " ++ p.1 ++ " (" ++ toString p.2 ++ " messages)"

/-- Event trace of a successful list run (source lines 160-186). -/
def listEvents (db : Db) : List Ev :=
  (Ev.eOpen :: Ev.ePrint "Available chats:\n"
      :: (listChatsPairs db).map (fun p => Ev.ePrint (chatLine p)))
    ++ [Ev.eClose]

/-- Embedding of extract_messages (source lines 12-157), given the
outcome of the sqlite connect call: on failure the diagnostic and hint go
to the error stream and the process exits with status 1; on success the
query runs, the lines are printed and the connection is closed. -/
def extractRun (conn : Except String Db) (cid : String) (dbg : Bool)
    (unarch : List Nat → Except Unit Decoded) : ProgResult :=
  match conn with
  | .error e => ⟨[], connErrLines e, some 1⟩
  | .ok db => ⟨printsOf (extractEvents db cid dbg unarch), [], none⟩

/-- Embedding of list_chats (source lines 160-186). -/
def listRun (conn : Except String Db) : ProgResult :=
  match conn with
  | .error e => ⟨[], connErrLines e, some 1⟩
  | .ok db => ⟨printsOf (listEvents db), [], none⟩

/-- Default store path under the home directory (source line 192). -/
def defaultDbPath (home : String) : String :=
  home ++ "/Library/Messages/chat.db"

/-- Usage lines printed when no command is given (source lines 195-198). -/
def usageLines (argv0 : String) (dflt : String) : List String :=
  ["Usage:",
   "  " ++ argv0 ++ " list [db_path]",
   "  " ++ argv0 ++ " extract <chat_identifier> [db_path]",
   "\nDefault db_path: " ++ dflt]

/-- Embedding of main (source lines 189-216).  The argv list includes the
program name in position 0, as sys.argv does.  The connect parameter maps
a store path to the outcome of the sqlite connect call, and home models
the home directory of the invoking user. -/
def mainRun (connect : String → Except String Db) (home : String)
    (unarch : List Nat → Except Unit Decoded) (argv : List String) :
    ProgResult :=
  let dflt := defaultDbPath home
  if argv.length < 2 then
    ⟨usageLines (argv.headD "") dflt, [], some 1⟩
  else
    let cmd := argv.getD 1 ""
    if cmd = "list" then
      listRun (connect (argv.getD 2 dflt))
    else if cmd = "extract" then
      if argv.length < 3 then
        ⟨["Error: chat_identifier required for extract command"], [], some 1⟩
      else
        extractRun
          (connect (if 3 < argv.length then argv.getD 3 "" else dflt))
          (argv.getD 2 "") (argv.contains "--debug") unarch
    else
      ⟨["Unknown command: " ++ cmd], [], some 1⟩

/-- Interpreter of an event trace against an output channel that accepts
a bounded number of prints: the budget is the number of prints accepted
before the channel raises.  The result is the executed prefix of the
trace and whether an exception was raised. -/
def runEvents : Nat → List Ev → List Ev × Bool
  | _, [] => ([], false)
  | budget, e :: rest =>
    match e with
    | Ev.ePrint s =>
      if budget = 0 then ([], true)
      else
        let r := runEvents (budget - 1) rest
        (Ev.ePrint s :: r.1, r.2)
    | e' =>
      let r := runEvents budget rest
      (e' :: r.1, r.2)

/-- Payload bytes of the test fixture b of test data (the literal ASCII
bytes of the string test data). -/
def testBytes : List Nat := [116, 101, 115, 116, 32, 100, 97, 116, 97]

/-- Payload holding two equal-length printable runs, aaaaaa then zzzzzz,
separated by a zero byte. -/
def c1Bytes : List Nat := [97, 97, 97, 97, 97, 97, 0, 122, 122, 122, 122, 122, 122]

/-- Unarchive model that always raises, as the external decoder does on
arbitrary non-archive bytes. -/
def u0 : List Nat → Except Unit Decoded := fun _ => Except.error ()

/-- Connect model that always fails, echoing the attempted path into the
error message. -/
def connect0 : String → Except String Db := fun p => Except.error p

/-- Store with one chat and two messages sharing the same timestamp. -/
def exDb6 : Db :=
  ⟨[(1, "c")],
   [⟨1, some "a", none, 5, true⟩, ⟨2, some "b", none, 5, false⟩],
   [(1, 1), (1, 2)]⟩

/-- Store mirroring the test fixture: one chat with two messages and one
chat with one message. -/
def db7 : Db :=
  ⟨[(1, "+15551234567"), (2, "test@example.com")],
   [⟨1, some "Hello", none, 0, true⟩,
    ⟨2, some "Hi there", none, 1000000000, false⟩,
    ⟨3, some "How are you?", none, 2000000000, true⟩],
   [(1, 1), (1, 2), (2, 3)]⟩

/-- Store with one chat and one message carrying plain text. -/
def db9 : Db :=
  ⟨[(1, "c")], [⟨1, some "hello there", none, 0, true⟩], [(1, 1)]⟩

theorem insertOrd_perm {α : Type} (le : α → α → Bool) (a : α) (l : List α) :
    (insertOrd le a l).Perm (a :: l) := by
  induction l with
  | nil => simp [insertOrd]
  | cons b t ih =>
    simp only [insertOrd]
    split
    · exact List.Perm.refl _
    · exact (ih.cons b).trans (List.Perm.swap a b t)

theorem sortOrd_perm {α : Type} (le : α → α → Bool) (l : List α) :
    (sortOrd le l).Perm l := by
  induction l with
  | nil => simp [sortOrd]
  | cons a t ih =>
    exact (insertOrd_perm le a (sortOrd le t)).trans (ih.cons a)

theorem pairwise_insertOrd {α : Type} (le : α → α → Bool)
    (htot : ∀ a b, le a b = true ∨ le b a = true)
    (htrans : ∀ a b c, le a b = true → le b c = true → le a c = true)
    (a : α) (l : List α) (h : l.Pairwise (fun x y => le x y = true)) :
    (insertOrd le a l).Pairwise (fun x y => le x y = true) := by
  induction l with
  | nil => simp [insertOrd]
  | cons b t ih =>
    rcases List.pairwise_cons.mp h with ⟨hb, ht⟩
    simp only [insertOrd]
    split
    case isTrue hab =>
      refine List.pairwise_cons.mpr ⟨?_, h⟩
      intro x hx
      rcases List.mem_cons.mp hx with rfl | hx'
      · exact hab
      · exact htrans a b x hab (hb x hx')
    case isFalse hab =>
      have hba : le b a = true := by
        rcases htot a b with h1 | h1
        · exact absurd h1 hab
        · exact h1
      refine List.pairwise_cons.mpr ⟨?_, ih ht⟩
      intro x hx
      have hx2 : x = a ∨ x ∈ t := by
        have := (insertOrd_perm le a t).mem_iff.mp hx
        simpa using this
      rcases hx2 with rfl | hx'
      · exact hba
      · exact hb x hx'

theorem sortOrd_pairwise {α : Type} (le : α → α → Bool)
    (htot : ∀ a b, le a b = true ∨ le b a = true)
    (htrans : ∀ a b c, le a b = true → le b c = true → le a c = true)
    (l : List α) :
    (sortOrd le l).Pairwise (fun x y => le x y = true) := by
  induction l with
  | nil => simp [sortOrd]
  | cons a t ih => exact pairwise_insertOrd le htot htrans a _ ih

theorem lexLe_refl (l : List Char) : lexLe l l = true := by
  induction l with
  | nil => rfl
  | cons a t ih => simp [lexLe, ih]

theorem lexLe_total (l m : List Char) : lexLe l m = true ∨ lexLe m l = true := by
  induction l generalizing m with
  | nil => left; rfl
  | cons a t ih =>
    cases m with
    | nil => right; rfl
    | cons b s =>
      by_cases h1 : a.toNat < b.toNat
      · left; simp [lexLe, h1]
      · by_cases h2 : b.toNat < a.toNat
        · right; simp [lexLe, h2]
        · rcases ih s with h | h
          · left; simp [lexLe, h1, h2, h]
          · right; simp [lexLe, h1, h2, h]

theorem lexLe_trans (l m n : List Char) (h1 : lexLe l m = true)
    (h2 : lexLe m n = true) : lexLe l n = true := by
  induction l generalizing m n with
  | nil => rfl
  | cons a t ih =>
    cases m with
    | nil => simp [lexLe] at h1
    | cons b s =>
      cases n with
      | nil => simp [lexLe] at h2
      | cons c u =>
        by_cases hab : a.toNat < b.toNat
        · by_cases hbc : b.toNat < c.toNat
          · have hac : a.toNat < c.toNat := by omega
            simp [lexLe, hac]
          · by_cases hcb : c.toNat < b.toNat
            · simp [lexLe, hbc, hcb] at h2
            · have hac : a.toNat < c.toNat := by omega
              simp [lexLe, hac]
        · by_cases hba : b.toNat < a.toNat
          · simp [lexLe, hab, hba] at h1
          · by_cases hbc : b.toNat < c.toNat
            · have hac : a.toNat < c.toNat := by omega
              simp [lexLe, hac]
            · by_cases hcb : c.toNat < b.toNat
              · simp [lexLe, hbc, hcb] at h2
              · have hac : ¬ a.toNat < c.toNat := by omega
                have hca : ¬ c.toNat < a.toNat := by omega
                have h1' : lexLe t s = true := by
                  simpa [lexLe, hab, hba] using h1
                have h2' : lexLe s u = true := by
                  simpa [lexLe, hbc, hcb] using h2
                simp [lexLe, hac, hca, ih s u h1' h2']

theorem pyTupleLe_refl (a : Nat × String) : pyTupleLe a a = true := by
  simp [pyTupleLe, lexLe_refl]

theorem pyTupleLe_total (a b : Nat × String) :
    pyTupleLe a b = true ∨ pyTupleLe b a = true := by
  by_cases h1 : a.1 < b.1
  · left; simp [pyTupleLe, h1]
  · by_cases h2 : b.1 < a.1
    · right; simp [pyTupleLe, h2]
    · rcases lexLe_total a.2.data b.2.data with h | h
      · left; simp [pyTupleLe, h1, h2, h]
      · right; simp [pyTupleLe, h1, h2, h]

theorem pyTupleLe_trans (a b c : Nat × String) (h1 : pyTupleLe a b = true)
    (h2 : pyTupleLe b c = true) : pyTupleLe a c = true := by
  by_cases hab : a.1 < b.1
  · by_cases hbc : b.1 < c.1
    · have hac : a.1 < c.1 := by omega
      simp [pyTupleLe, hac]
    · by_cases hcb : c.1 < b.1
      · simp [pyTupleLe, hbc, hcb] at h2
      · have hac : a.1 < c.1 := by omega
        simp [pyTupleLe, hac]
  · by_cases hba : b.1 < a.1
    · simp [pyTupleLe, hab, hba] at h1
    · by_cases hbc : b.1 < c.1
      · have hac : a.1 < c.1 := by omega
        simp [pyTupleLe, hac]
      · by_cases hcb : c.1 < b.1
        · simp [pyTupleLe, hbc, hcb] at h2
        · have hac : ¬ a.1 < c.1 := by omega
          have hca : ¬ c.1 < a.1 := by omega
          have h1' : lexLe a.2.data b.2.data = true := by
            simpa [pyTupleLe, hab, hba] using h1
          have h2' : lexLe b.2.data c.2.data = true := by
            simpa [pyTupleLe, hbc, hcb] using h2
          simp [pyTupleLe, hac, hca, lexLe_trans _ _ _ h1' h2']

theorem tupleGe_total (a b : Nat × String) :
    tupleGe a b = true ∨ tupleGe b a = true := by
  rcases pyTupleLe_total b a with h | h
  · left; exact h
  · right; exact h

theorem tupleGe_trans (a b c : Nat × String) (h1 : tupleGe a b = true)
    (h2 : tupleGe b c = true) : tupleGe a c = true :=
  pyTupleLe_trans c b a h2 h1

theorem scanLoop_fst (b : List Nat) :
    ∀ (fuel i : Nat) (p : Nat × String), p ∈ scanLoop b fuel i →
      p.1 = p.2.length := by
  intro fuel
  induction fuel with
  | zero =>
    intro i p hp
    simp [scanLoop] at hp
  | succ f ih =>
    intro i p hp
    simp only [scanLoop] at hp
    split at hp
    · split at hp
      · split at hp
        · split at hp
          · rcases List.mem_cons.mp hp with rfl | hp'
            · rfl
            · exact ih _ _ hp'
          · exact ih _ _ hp
        · exact ih _ _ hp
      · exact ih _ _ hp
    · simp at hp

theorem runEvents_complete (budget : Nat) (evs : List Ev)
    (h : (runEvents budget evs).2 = false) :
    (runEvents budget evs).1 = evs := by
  induction evs generalizing budget with
  | nil => simp [runEvents]
  | cons e rest ih =>
    cases e with
    | ePrint s =>
      by_cases hb : budget = 0
      · simp [runEvents, hb] at h
      · simp only [runEvents, if_neg hb] at h ⊢
        rw [ih (budget - 1) h]
    | eOpen =>
      simp only [runEvents] at h ⊢
      rw [ih budget h]
    | eClose =>
      simp only [runEvents] at h ⊢
      rw [ih budget h]

theorem count_open_mapPrint (l : List String) :
    (l.map Ev.ePrint).count Ev.eOpen = 0 := by
  rw [List.count_eq_zero]
  intro h
  rcases List.mem_map.mp h with ⟨s, _, hs⟩
  simp at hs

theorem count_close_mapPrint (l : List String) :
    (l.map Ev.ePrint).count Ev.eClose = 0 := by
  rw [List.count_eq_zero]
  intro h
  rcases List.mem_map.mp h with ⟨s, _, hs⟩
  simp at hs

theorem displayGuard_falsy (mt : Option String) (hf : optFalsy mt = true) :
    displayGuard mt = none := by
  cases mt with
  | none => rfl
  | some x =>
    have hx : x = "" := by simpa [optFalsy] using hf
    subst hx
    simp [displayGuard]

theorem extractRun_err (conn : Except String Db) (cid : String) (dbg : Bool)
    (unarch : List Nat → Except Unit Decoded) :
    (extractRun conn cid dbg unarch).err = [] ∨
      ∃ e, (extractRun conn cid dbg unarch).err = connErrLines e := by
  cases conn with
  | error e => right; exact ⟨e, rfl⟩
  | ok db => left; rfl

theorem listRun_err (conn : Except String Db) :
    (listRun conn).err = [] ∨ ∃ e, (listRun conn).err = connErrLines e := by
  cases conn with
  | error e => right; exact ⟨e, rfl⟩
  | ok db => left; rfl

/-- C1 counterexample: on a payload holding two surviving candidates of
equal length, aaaaaa first in scan order and zzzzzz second, the source
picks zzzzzz (the descending tuple sort compares the strings), while the
first-occurrence selection worded by the spec picks aaaaaa. -/
theorem c1_tier2_tie_counterexample :
    tier2Scan c1Bytes = some "zzzzzz" ∧
    specFirstLongest (tier2Candidates c1Bytes) = some "aaaaaa" ∧
    tier2Scan c1Bytes ≠ specFirstLongest (tier2Candidates c1Bytes) := by
  exact ⟨by decide, by decide, by decide⟩

/-- C1 (amended): the Tier 2 scan selects, among all surviving candidate
runs, a candidate that is maximal under the order comparing length first
and then the string lexicographically; it is the longest candidate, with
ties between equal-length candidates broken in favour of the
lexicographically greatest candidate, not the first in scan order. -/
theorem c1_tier2_selects_max :
    ∀ (b : List Nat) (s : String), tier2Scan b = some s →
      (s.length, s) ∈ tier2Candidates b ∧
      ∀ p ∈ tier2Candidates b, pyTupleLe p (s.length, s) = true := by
  intro b s h
  unfold tier2Scan at h
  split at h
  · exact Option.noConfusion h
  · next q rest heq =>
    have hq2 : q.2 = s := Option.some.inj h
    have hqmem : q ∈ tier2Candidates b := by
      have hq : q ∈ sortOrd tupleGe (tier2Candidates b) := by
        rw [heq]; exact List.mem_cons_self q rest
      exact (sortOrd_perm tupleGe _).mem_iff.mp hq
    have hq1 : q.1 = q.2.length := scanLoop_fst b _ _ q hqmem
    have hqs : q = (s.length, s) := by
      rw [Prod.ext_iff]
      exact ⟨by rw [hq1, hq2], hq2⟩
    constructor
    · rw [← hqs]; exact hqmem
    · intro p hp
      have hp' : p ∈ sortOrd tupleGe (tier2Candidates b) :=
        (sortOrd_perm tupleGe _).mem_iff.mpr hp
      rw [heq] at hp'
      rcases List.mem_cons.mp hp' with rfl | hpr
      · rw [hqs]; exact pyTupleLe_refl _
      · have hpw := sortOrd_pairwise tupleGe tupleGe_total tupleGe_trans
          (tier2Candidates b)
        rw [heq] at hpw
        have hge := (List.pairwise_cons.mp hpw).1 p hpr
        rw [hqs] at hge
        exact hge

/-- C1 witness: the amended selection property evaluated on the test
payload. -/
theorem c1_tier2_selects_max_witness :
    ("test data".length, "test data") ∈ tier2Candidates testBytes ∧
    ∀ p ∈ tier2Candidates testBytes,
      pyTupleLe p ("test data".length, "test data") = true :=
  c1_tier2_selects_max testBytes "test data" (by decide)

/-- C2: the payload bytes influence the decoded text only through the
Tier 2 scan, which runs exactly when the unarchive call raised; on a
Tier 1 success the result is the object extraction alone, so a successful
parse with no extractable string skips Tier 2 and falls through to the
plain-text fallback.  The embedding is total, modelling that no parsing
exception propagates. -/
theorem c2_tier2_iff_tier1_raised :
    ∀ (r : Except Unit Decoded) (b bp : List Nat),
      (attributedTextOf r b ≠ attributedTextOf r bp → r = Except.error ()) ∧
      (r = Except.error () → attributedTextOf r b = tier2Scan b) ∧
      (∀ d : Decoded, r = Except.ok d →
        attributedTextOf r b = extractFromDecoded d) := by
  intro r b bp
  refine ⟨?_, ?_, ?_⟩
  · intro h
    cases r with
    | ok d => exact absurd rfl h
    | error e => cases e; rfl
  · intro h; subst h; rfl
  · intro d h; subst h; rfl

/-- C2 witness: the gating property evaluated at a failing unarchive
outcome on the test payload. -/
theorem c2_tier2_iff_tier1_raised_witness :
    attributedTextOf (Except.error ()) testBytes = tier2Scan testBytes :=
  (c2_tier2_iff_tier1_raised (Except.error ()) testBytes []).2.1 rfl

/-- C3 counterexample: a Tier 1 decoded string attribute that is a single
space is printed as a message line in non-debug mode even though it is
whitespace-only, and a decoded string containing the object replacement
glyph among other characters is printed including the glyph. -/
theorem c3_whitespace_glyph_counterexample :
    displayedText (fun _ => Except.ok ⟨some " ", none, none⟩)
        (some [65]) none = some " " ∧
    pyStrip " " = "" ∧
    displayedText (fun _ => Except.ok ⟨some "a￼b", none, none⟩)
        (some [65]) none = some "a￼b" := by
  exact ⟨by decide, by decide, by decide⟩

/-- C3 (amended): a printed message line is never the empty string and
never trims to exactly the object replacement glyph, and whenever the
decode tiers produced nothing truthy the printed line is the plain-text
field, which is printed only if its trimmed content is nonempty; however
a truthy Tier 1 decoded string is printed even when whitespace-only or
when it contains the glyph among other characters. -/
theorem c3_display_guard :
    ∀ (unarch : List Nat → Except Unit Decoded) (body : Option (List Nat))
      (text : Option String) (s : String),
      displayedText unarch body text = some s →
        (s ≠ "" ∧ pyStrip s ≠ "￼") ∧
        (optFalsy (decodedTextOf unarch body) = true →
          text = some s ∧ pyStrip s ≠ "") := by
  intro unarch body text s h
  constructor
  · unfold displayedText displayGuard at h
    split at h
    · next t heq =>
      split at h
      · next hc =>
        obtain rfl : t = s := Option.some.inj h
        exact hc
      · exact Option.noConfusion h
    · exact Option.noConfusion h
  · intro hf
    unfold displayedText withFallback at h
    rw [if_pos hf] at h
    cases text with
    | none =>
      rw [displayGuard_falsy _ hf] at h
      exact Option.noConfusion h
    | some t =>
      dsimp only at h
      by_cases hc : t ≠ "" ∧ pyStrip t ≠ "" ∧ pyStrip t ≠ "￼"
      · rw [if_pos hc] at h
        dsimp only [displayGuard] at h
        split at h
        · obtain rfl : t = s := Option.some.inj h
          exact ⟨rfl, hc.2.1⟩
        · exact Option.noConfusion h
      · rw [if_neg hc] at h
        rw [displayGuard_falsy _ hf] at h
        exact Option.noConfusion h

/-- C3 witness: the amended guard property evaluated on a plain-text
message. -/
theorem c3_display_guard_witness :
    (("hello!" : String) ≠ "" ∧ pyStrip "hello!" ≠ "￼") ∧
    (optFalsy (decodedTextOf u0 none) = true →
      (some "hello!" : Option String) = some "hello!" ∧
        pyStrip "hello!" ≠ "") :=
  c3_display_guard u0 none (some "hello!") "hello!" (by decide)

/-- C4 counterexample: on the payload b of test data with an absent
plain-text field, the message is neither omitted nor shown with its
plain-text fallback: the Tier 2 scan recovers the text test data and the
message line displays it. -/
theorem c4_decode_failure_counterexample :
    displayedText u0 (some testBytes) none = some "test data" ∧
    ¬ (displayedText u0 (some testBytes) none = none ∨
        ∃ t, (none : Option String) = some t ∧
          displayedText u0 (some testBytes) none = some t) := by
  refine ⟨by decide, ?_⟩
  rintro (h | ⟨t, ht, _⟩)
  · rw [(by decide :
      displayedText u0 (some testBytes) none = some "test data")] at h
    exact Option.noConfusion h
  · exact Option.noConfusion ht

/-- C4 (amended): a decoding failure on one message never aborts the
batch: the printed lines of any row depend only on that row, the header
reports the full row count regardless of decode outcomes, and a run over
a successfully opened store always returns normally; the affected message
shows heuristically recovered Tier 2 text, its plain-text fallback, or is
omitted. -/
theorem c4_decode_failure_absorbed :
    ∀ (unarch : List Nat → Except Unit Decoded) (dbg : Bool)
      (pre post : List Msg) (m : Msg) (db : Db) (cid : String),
      rowsLines unarch dbg (pre ++ m :: post)
        = rowsLines unarch dbg pre ++ rowLines unarch dbg m
            ++ rowsLines unarch dbg post ∧
      (extractRun (Except.ok db) cid dbg unarch).out.head?
        = some (foundLine (queryMessages db cid).length cid) ∧
      (extractRun (Except.ok db) cid dbg unarch).exit = none := by
  intro unarch dbg pre post m db cid
  refine ⟨?_, ?_, rfl⟩
  · induction pre with
    | nil => simp [rowsLines]
    | cons x xs ih => simp [rowsLines, ih]
  · simp [extractRun, extractEvents, printsOf]

/-- C5 counterexample: with a connect function that never fails, invoking
the program with no command still terminates with exit status 1 (and
nothing on the error stream), so the store-open failure is not the only
path on which the program aborts. -/
theorem c5_abort_counterexample :
    (mainRun (fun _ => Except.ok ⟨[], [], []⟩) "h" u0 ["prog"]).exit
        = some 1 ∧
    (mainRun (fun _ => Except.ok ⟨[], [], []⟩) "h" u0 ["prog"]).err = [] := by
  exact ⟨rfl, rfl⟩

/-- C5 (amended): when the store cannot be opened, both extract and list
write the connection diagnostic with the file-access-permission hint to
the error stream and terminate with exit status 1, and within the two
store operations this is the only abort path (a successful open always
returns normally); the command-line layer, however, also exits with
status 1 on usage errors. -/
theorem c5_store_open_failure :
    ∀ (e : String) (db : Db) (cid : String) (dbg : Bool)
      (unarch : List Nat → Except Unit Decoded),
      ((extractRun (Except.error e) cid dbg unarch).exit = some 1 ∧
        fdaHint ∈ (extractRun (Except.error e) cid dbg unarch).err) ∧
      ((listRun (Except.error e)).exit = some 1 ∧
        fdaHint ∈ (listRun (Except.error e)).err) ∧
      (extractRun (Except.ok db) cid dbg unarch).exit = none ∧
      (listRun (Except.ok db)).exit = none := by
  intro e db cid dbg unarch
  refine ⟨⟨rfl, ?_⟩, ⟨rfl, ?_⟩, rfl, rfl⟩ <;>
    simp [extractRun, listRun, connErrLines]

/-- C5 witness: the failure and success paths evaluated concretely. -/
theorem c5_store_open_failure_witness :
    ((extractRun (Except.error "boom") "c" false u0).exit = some 1 ∧
      fdaHint ∈ (extractRun (Except.error "boom") "c" false u0).err) ∧
    ((listRun (Except.error "boom")).exit = some 1 ∧
      fdaHint ∈ (listRun (Except.error "boom")).err) ∧
    (extractRun (Except.ok db9) "c" false u0).exit = none ∧
    (listRun (Except.ok db9)).exit = none :=
  c5_store_open_failure "boom" db9 "c" false u0

/-- C6 counterexample: a store holding two messages of one chat with equal
timestamps: the query returns both, so the timestamp sequence is 5, 5,
which is not strictly ascending. -/
theorem c6_duplicate_timestamp_counterexample :
    (queryMessages exDb6 "c").map (fun m => m.date) = [5, 5] ∧
    ¬ List.Pairwise (fun a b : Int => a < b)
        ((queryMessages exDb6 "c").map (fun m => m.date)) := by
  refine ⟨by decide, ?_⟩
  rw [(by decide : (queryMessages exDb6 "c").map (fun m => m.date)
      = [(5 : Int), 5])]
  intro h
  have h5 := (List.pairwise_cons.mp h).1 5 (List.mem_cons_self _ _)
  omega

/-- C6 (amended): for every store and conversation identifier, the
extraction query returns exactly the matching rows (as a permutation) in
ascending, not necessarily strictly ascending, timestamp order. -/
theorem c6_sorted_by_date :
    ∀ (db : Db) (cid : String),
      List.Pairwise (fun a b : Msg => a.date ≤ b.date)
        (queryMessages db cid) ∧
      (queryMessages db cid).Perm (matchingRows db cid) := by
  intro db cid
  have htot : ∀ a b : Msg, dateLe a b = true ∨ dateLe b a = true := by
    intro a b
    rcases Int.le_total a.date b.date with h | h
    · left; exact decide_eq_true h
    · right; exact decide_eq_true h
  have htrans : ∀ a b c : Msg, dateLe a b = true → dateLe b c = true →
      dateLe a c = true := by
    intro a b c h1 h2
    exact decide_eq_true (le_trans (of_decide_eq_true h1) (of_decide_eq_true h2))
  constructor
  · have h := sortOrd_pairwise dateLe htot htrans (matchingRows db cid)
    exact h.imp (fun hab => of_decide_eq_true hab)
  · exact sortOrd_perm dateLe _

/-- C7: the list operation produces one pair per distinct conversation
identifier having at least one joined message, none for identifiers with
zero joined messages, each pair carrying that identifier's message count,
ordered by descending count. -/
theorem c7_list_chats :
    ∀ db : Db,
      ((listChatsPairs db).map Prod.fst).Nodup ∧
      (∀ p ∈ listChatsPairs db,
        p.2 = (chatGroupKeys db).count p.1 ∧ 0 < p.2) ∧
      (∀ id : String, 0 < (chatGroupKeys db).count id →
        ∃ n, (id, n) ∈ listChatsPairs db) ∧
      List.Pairwise (fun a b : String × Nat => b.2 ≤ a.2)
        (listChatsPairs db) := by
  intro db
  have hperm : (listChatsPairs db).Perm ((chatGroupKeys db).dedup.map
      (fun id => (id, (chatGroupKeys db).count id))) := by
    simpa [listChatsPairs] using sortOrd_perm countDesc
      ((chatGroupKeys db).dedup.map
        (fun id => (id, (chatGroupKeys db).count id)))
  refine ⟨?_, ?_, ?_, ?_⟩
  · have h2 : ((chatGroupKeys db).dedup.map
        (fun id => (id, (chatGroupKeys db).count id))).map Prod.fst
        = (chatGroupKeys db).dedup := by
      rw [List.map_map]; exact List.map_id _
    have h3 : ((listChatsPairs db).map Prod.fst).Perm
        (chatGroupKeys db).dedup := by
      rw [← h2]; exact hperm.map Prod.fst
    exact h3.symm.nodup (List.nodup_dedup _)
  · intro p hp
    have hp' := hperm.mem_iff.mp hp
    rcases List.mem_map.mp hp' with ⟨id, hid, heq⟩
    constructor
    · rw [← heq]
    · rw [← heq]
      exact List.count_pos_iff.mpr (List.mem_dedup.mp hid)
  · intro id hid
    refine ⟨(chatGroupKeys db).count id, ?_⟩
    apply hperm.mem_iff.mpr
    exact List.mem_map.mpr
      ⟨id, List.mem_dedup.mpr (List.count_pos_iff.mp hid), rfl⟩
  · have htot : ∀ a b : String × Nat,
        countDesc a b = true ∨ countDesc b a = true := by
      intro a b
      rcases Nat.le_total b.2 a.2 with h | h
      · left; exact decide_eq_true h
      · right; exact decide_eq_true h
    have htrans : ∀ a b c : String × Nat, countDesc a b = true →
        countDesc b c = true → countDesc a c = true := by
      intro a b c h1 h2
      exact decide_eq_true
        (Nat.le_trans (of_decide_eq_true h2) (of_decide_eq_true h1))
    have h := sortOrd_pairwise countDesc htot htrans
      ((chatGroupKeys db).dedup.map
        (fun id => (id, (chatGroupKeys db).count id)))
    have h' := h.imp (fun hab => of_decide_eq_true hab)
    simpa [listChatsPairs] using h'

/-- C7 witness: the list property evaluated on the two-chat fixture
store. -/
theorem c7_list_chats_witness :
    ((("+15551234567" : String), 2).2
        = (chatGroupKeys db7).count (("+15551234567" : String), 2).1 ∧
      0 < ((("+15551234567" : String), 2)).2) ∧
    ∃ n, (("test@example.com" : String), n) ∈ listChatsPairs db7 :=
  ⟨(c7_list_chats db7).2.1 ("+15551234567", 2) (by decide),
   (c7_list_chats db7).2.2.1 "test@example.com" (by decide)⟩

/-- C8: invoking extract with the debug flag and the store path omitted
makes the program pass the literal string of the debug flag to the
connect call as the store path (while enabling debug), instead of the
default store location under the home directory, which is never equal to
that literal. -/
theorem c8_debug_flag_consumed_as_db_path :
    ∀ (connect : String → Except String Db) (home : String)
      (unarch : List Nat → Except Unit Decoded),
      mainRun connect home unarch
          ["extract_messages.py", "extract", "+15551234567", "--debug"]
        = extractRun (connect "--debug") "+15551234567" true unarch ∧
      ∀ h : String, defaultDbPath h ≠ "--debug" := by
  intro connect home unarch
  constructor
  · rfl
  · intro h heq
    have hlen := congrArg String.length heq
    rw [defaultDbPath, String.length_append] at hlen
    rw [(by decide : ("/Library/Messages/chat.db" : String).length = 25),
        (by decide : ("--debug" : String).length = 7)] at hlen
    omega

/-- C8 witness: the dispatch equality and the path inequality evaluated
concretely. -/
theorem c8_debug_flag_consumed_as_db_path_witness :
    mainRun connect0 "h" u0
        ["extract_messages.py", "extract", "+15551234567", "--debug"]
      = extractRun (connect0 "--debug") "+15551234567" true u0 ∧
    defaultDbPath "h" ≠ "--debug" :=
  ⟨(c8_debug_flag_consumed_as_db_path connect0 "h" u0).1,
   (c8_debug_flag_consumed_as_db_path connect0 "h" u0).2 "h"⟩

/-- C9 counterexample: on a store with one printable message, if the
output channel fails at the second print, the run raises after the open
event and the close event is never executed: the source has no scoped
guard around the connection. -/
theorem c9_no_close_on_print_failure_counterexample :
    (runEvents 1 (extractEvents db9 "c" false u0)).2 = true ∧
    Ev.eOpen ∈ (runEvents 1 (extractEvents db9 "c" false u0)).1 ∧
    Ev.eClose ∉ (runEvents 1 (extractEvents db9 "c" false u0)).1 := by
  exact ⟨by decide, by decide, by decide⟩

/-- C9 (amended): in every extract or list run over a successfully opened
store, the connection is opened exactly once and the close is the last
event before normal return; whenever no print raises, the whole trace
including the close executes, but a print failure skips the close. -/
theorem c9_connection_lifecycle :
    ∀ (db : Db) (cid : String) (dbg : Bool)
      (unarch : List Nat → Except Unit Decoded) (budget : Nat),
      (extractEvents db cid dbg unarch).count Ev.eOpen = 1 ∧
      (extractEvents db cid dbg unarch).count Ev.eClose = 1 ∧
      (extractEvents db cid dbg unarch).getLast? = some Ev.eClose ∧
      (listEvents db).count Ev.eOpen = 1 ∧
      (listEvents db).count Ev.eClose = 1 ∧
      (listEvents db).getLast? = some Ev.eClose ∧
      ((runEvents budget (extractEvents db cid dbg unarch)).2 = false →
        (runEvents budget (extractEvents db cid dbg unarch)).1
          = extractEvents db cid dbg unarch) ∧
      ((runEvents budget (listEvents db)).2 = false →
        (runEvents budget (listEvents db)).1 = listEvents db) := by
  intro db cid dbg unarch budget
  refine ⟨?_, ?_, ?_, ?_, ?_, ?_, runEvents_complete _ _, runEvents_complete _ _⟩
  · simp [extractEvents, List.count_append, List.count_cons,
      count_open_mapPrint]
  · simp [extractEvents, List.count_append, List.count_cons,
      count_close_mapPrint]
  · simp only [extractEvents]
    exact List.getLast?_concat _
  · have hz : (List.map (fun p => Ev.ePrint (chatLine p)) (listChatsPairs db)).count
        Ev.eOpen = 0 := by
      rw [List.count_eq_zero]
      intro hmem
      rcases List.mem_map.mp hmem with ⟨p, _, hp⟩
      exact Ev.noConfusion hp
    simp [listEvents, List.count_append, List.count_cons, hz]
  · have hz : (List.map (fun p => Ev.ePrint (chatLine p)) (listChatsPairs db)).count
        Ev.eClose = 0 := by
      rw [List.count_eq_zero]
      intro hmem
      rcases List.mem_map.mp hmem with ⟨p, _, hp⟩
      exact Ev.noConfusion hp
    simp [listEvents, List.count_append, List.count_cons, hz]
  · simp only [listEvents]
    exact List.getLast?_concat _

/-- C9 witness: the lifecycle property evaluated on the fixture store with
a budget large enough that no print fails. -/
theorem c9_connection_lifecycle_witness :
    (runEvents 10 (extractEvents db9 "c" false u0)).1
      = extractEvents db9 "c" false u0 :=
  (c9_connection_lifecycle db9 "c" false u0 10).2.2.2.2.2.2.1 (by decide)

/-- C10: every command-line misuse (no command, extract without an
identifier, unknown command) writes its message to standard output with
an empty error stream and exits with status 1, and on every invocation
the error stream is either empty or exactly the store-connection failure
diagnostic. -/
theorem c10_usage_errors_to_stdout :
    ∀ (connect : String → Except String Db) (home : String)
      (unarch : List Nat → Except Unit Decoded),
      ((mainRun connect home unarch ["prog"]).err = [] ∧
        "Usage:" ∈ (mainRun connect home unarch ["prog"]).out ∧
        (mainRun connect home unarch ["prog"]).exit = some 1) ∧
      ((mainRun connect home unarch ["prog", "extract"]).err = [] ∧
        "Error: chat_identifier required for extract command"
          ∈ (mainRun connect home unarch ["prog", "extract"]).out ∧
        (mainRun connect home unarch ["prog", "extract"]).exit = some 1) ∧
      (∀ cmd : String, cmd ≠ "list" → cmd ≠ "extract" →
        (mainRun connect home unarch ["prog", cmd]).err = [] ∧
        ("Unknown command: " ++ cmd)
          ∈ (mainRun connect home unarch ["prog", cmd]).out ∧
        (mainRun connect home unarch ["prog", cmd]).exit = some 1) ∧
      (∀ argv : List String, (mainRun connect home unarch argv).err = [] ∨
        ∃ e, (mainRun connect home unarch argv).err = connErrLines e) := by
  intro connect home unarch
  refine ⟨⟨rfl, ?_, rfl⟩, ⟨rfl, ?_, rfl⟩, ?_, ?_⟩
  · simp [mainRun, usageLines]
  · simp [mainRun]
  · intro cmd h1 h2
    refine ⟨?_, ?_, ?_⟩ <;> simp [mainRun, h1, h2]
  · intro argv
    simp only [mainRun]
    by_cases hlen : argv.length < 2
    · rw [if_pos hlen]; left; rfl
    · rw [if_neg hlen]
      by_cases hc1 : argv.getD 1 "" = "list"
      · rw [if_pos hc1]
        exact listRun_err _
      · rw [if_neg hc1]
        by_cases hc2 : argv.getD 1 "" = "extract"
        · rw [if_pos hc2]
          by_cases hlen3 : argv.length < 3
          · rw [if_pos hlen3]; left; rfl
          · rw [if_neg hlen3]
            exact extractRun_err _ _ _ _
        · rw [if_neg hc2]; left; rfl

/-- C10 witness: the misuse and error-stream properties evaluated
concretely. -/
theorem c10_usage_errors_to_stdout_witness :
    ((mainRun connect0 "h" u0 ["prog", "bogus"]).err = [] ∧
      ("Unknown command: " ++ "bogus")
        ∈ (mainRun connect0 "h" u0 ["prog", "bogus"]).out ∧
      (mainRun connect0 "h" u0 ["prog", "bogus"]).exit = some 1) ∧
    ((mainRun connect0 "h" u0 ["prog", "list"]).err = [] ∨
      ∃ e, (mainRun connect0 "h" u0 ["prog", "list"]).err = connErrLines e) :=
  ⟨(c10_usage_errors_to_stdout connect0 "h" u0).2.2.1 "bogus"
      (by decide) (by decide),
   (c10_usage_errors_to_stdout connect0 "h" u0).2.2.2 ["prog", "list"]⟩
